import Mathlib

/-!
Verification of the granular synthesis engine in src/granular.cpp
(VCV Rack plugin).  The C++ floats/doubles are modelled as real numbers
(ideal arithmetic); `int` casts of floating values are modelled as
truncation toward zero, and the implicit int -> size_t conversion in
`(index1 + 1) % effectiveSize` is modelled as reduction mod 2^64 followed
by the unsigned remainder, faithful for buffers below 2^31 samples.
-/

noncomputable section

/-- rack::math::rescale: linear map of x from [xMin, xMax] to [yMin, yMax]. -/
def rescale (x xMin xMax yMin yMax : ℝ) : ℝ :=
  (x - xMin) / (xMax - xMin) * (yMax - yMin) + yMin

/-- rack::math::clamp(x, lo, hi) = max(min(x, hi), lo). -/
def rclamp (x lo hi : ℝ) : ℝ := max (min x hi) lo

/-- C cast of a floating value to an integer: truncation toward zero. -/
def ctrunc (x : ℝ) : ℤ := if 0 ≤ x then ⌊x⌋ else ⌈x⌉

/-- C fmod(x, y) = x - y * trunc(x / y). -/
def cfmod (x y : ℝ) : ℝ := x - y * ctrunc (x / y)

/-- rack::math::clamp on ints (used for the sync-table index). -/
def iclamp (x lo hi : ℤ) : ℤ := max (min x hi) lo

/-- Granular::getClampedRandomizedValue: symmetric uniform perturbation of
half-width r/2 around the base, re-clamped into [0,1]; u is the value the
uniform(0,1) generator returned for this call. -/
def getClampedRandomizedValue (base r u : ℝ) : ℝ :=
  rclamp (base + (u * 2 - 1) * (r * 0.5)) 0 1

/-- The SYNC_DIVISIONS table: 1/32, 1/16, 1/8, 1/4, 1/2, 1 bar, 2 bars, 4 bars. -/
def SYNC_DIVISIONS : List ℝ := [0.03125, 0.0625, 0.125, 0.25, 0.5, 1, 2, 4]

/-- Table lookup SYNC_DIVISIONS[i] for an index already clamped to [0,7]. -/
def syncDivision (i : ℤ) : ℝ := SYNC_DIVISIONS.getD i.toNat 0

/-- Index computation (int)(x * (NUM_SYNC_DIVS - 1) + 0.5f) followed by the
rack clamp to [0, 7], as in Granular::process. -/
def syncIndexOf (x : ℝ) : ℤ := iclamp (ctrunc (x * 7 + 0.5)) 0 7

/-- The synced spawn period for the density control: the raw density value
d (post CV and randomization) is inverted before the table lookup, the
period is secondsPerBeat times the division multiplier, floored to 1e-4. -/
def syncDensityPeriod (d spb : ℝ) : ℝ :=
  let p := spb * syncDivision (syncIndexOf (1 - d))
  if p < 0.0001 then 0.0001 else p

/-- One grain voice (struct Grain in granular.cpp). -/
structure Grain where
  bufferPos : ℝ
  life : ℝ
  lifeIncrement : ℝ
  playbackSpeed : ℝ
  finalEnvShape : ℝ

/-- Pre-clamp index1 = (int)bufferPos. -/
def sampleIdx1Raw (pos : ℝ) : ℤ := ctrunc pos

/-- Pre-clamp index2 = (index1 + 1) % effectiveSize, where the int operand
is converted to size_t (64-bit unsigned) before the unsigned remainder. -/
def sampleIdx2Raw (pos : ℝ) (len : ℕ) : ℤ :=
  ((sampleIdx1Raw pos + 1).emod (2 ^ 64)).emod (len : ℤ)

/-- index1 after the two sequential clamping ifs of Grain::getSample. -/
def sampleIdx1 (pos : ℝ) (len : ℕ) : ℤ :=
  let i := sampleIdx1Raw pos
  let i := if i < 0 then 0 else i
  if i ≥ (len : ℤ) then (len : ℤ) - 1 else i

/-- index2 after the two sequential clamping ifs of Grain::getSample. -/
def sampleIdx2 (pos : ℝ) (len : ℕ) : ℤ :=
  let i := sampleIdx2Raw pos len
  let i := if i < 0 then 0 else i
  if i ≥ (len : ℤ) then (len : ℤ) - 1 else i

/-- Grain::getSample: linear interpolation read from the buffer, with the
empty-buffer / zero-length guard returning 0 before any index computation
or buffer read happens. -/
def Grain.getSample (g : Grain) (buffer : List ℝ) (activeLen : ℕ) : ℝ :=
  if buffer = [] ∨ activeLen = 0 then 0
  else
    let frac : ℝ := g.bufferPos - (sampleIdx1Raw g.bufferPos : ℝ)
    let s1 := buffer.getD (sampleIdx1 g.bufferPos activeLen).toNat 0
    let s2 := buffer.getD (sampleIdx2 g.bufferPos activeLen).toNat 0
    (1 - frac) * s1 + frac * s2

/-- The triangle anchor shape 1 - |life - 0.5| * 2. -/
def shapeTriangle (life : ℝ) : ℝ := 1 - |life - 0.5| * 2

/-- The sine (Hann) anchor shape 0.5 * (1 - cos(2 pi life)). -/
def shapeSine (life : ℝ) : ℝ := 0.5 * (1 - Real.cos (2 * Real.pi * life))

/-- Grain::getEnvelope as a function of the shape control and the phase:
two-segment linear blend square -> triangle -> sine. -/
def grainEnvelope (envShape life : ℝ) : ℝ :=
  if envShape ≤ 0.5 then
    (1 - envShape * 2) * 1 + (envShape * 2) * shapeTriangle life
  else
    (1 - (envShape - 0.5) * 2) * shapeTriangle life
      + ((envShape - 0.5) * 2) * shapeSine life

/-- Grain::getEnvelope (the member reads the life of this grain). -/
def Grain.getEnvelope (g : Grain) (envShape : ℝ) : ℝ :=
  grainEnvelope envShape g.life

/-- Grain::advance: move by the speed ratio, wrap at loopEnd by fmod into
the loop (or snap to loopStart for negligible width), clamp below
loopStart; the envelope phase grows by lifeIncrement. -/
def Grain.advance (g : Grain) (loopStart loopEnd : ℝ) : Grain :=
  let p0 := g.bufferPos + g.playbackSpeed
  let p1 :=
    if p0 ≥ loopEnd then
      let overflow := p0 - loopEnd
      let loopWidth := loopEnd - loopStart
      if loopWidth > 0.00001 then loopStart + cfmod overflow loopWidth
      else loopStart
    else if p0 < loopStart then loopStart
    else p0
  { g with bufferPos := p1, life := g.life + g.lifeIncrement }

/-- Grain::isAlive. -/
def Grain.isAlive (g : Grain) : Prop := g.life < 1

/-- The backward erase loop over the pool keeps exactly the alive grains:
its net effect is a filter. -/
def reapGrains (gs : List Grain) : List Grain :=
  gs.filter (fun g => decide (g.life < 1))

/-- Post-reap mixdown: out /= sqrt(grains.size()) only when the pool is
non-empty. -/
def mixdown (n : ℕ) (total : ℝ) : ℝ :=
  if n = 0 then total else total / Real.sqrt n

/-- Makeup gain and tanh soft clip: out = 5 * tanh(out * (1 + c*3)). -/
def outputShaper (x c : ℝ) : ℝ := 5 * Real.tanh (x * (1 + c * 3))

/-- The mutable fields of struct Granular that the audio tick reads and
writes. -/
structure EngineState where
  audioBuffer : List ℝ
  fileSampleRate : ℕ
  activeBufferLen : ℕ
  bufferIsRawVoltage : Bool
  grains : List Grain
  grainSpawnTimer : ℝ
  grainSpawnPosition : ℝ
  isLoading : Bool
  isRecording : Bool
  recHead : ℕ
  wasRecordingPrev : Bool
  bufferWrapped : Bool
  recTrigState : Bool

/-- Everything one call of Granular::process reads from outside the
module state: knob values, CV voltages, the record gate, the host clock,
and the stream of uniform(0,1) random draws in the order the code
requests them (0: density, 1: size, 2: spawn position, 3: pitch,
4: envelope shape). -/
structure TickInputs where
  compression : ℝ
  size : ℝ
  density : ℝ
  envShape : ℝ
  position : ℝ
  pitch : ℝ
  rSize : ℝ
  rDensity : ℝ
  rEnvShape : ℝ
  rPosition : ℝ
  rPitch : ℝ
  mSize : ℝ
  mDensity : ℝ
  mEnvShape : ℝ
  mPosition : ℝ
  mPitch : ℝ
  startP : ℝ
  endP : ℝ
  liveRec : ℝ
  bpm : ℝ
  sync : ℝ
  inVoct : ℝ
  mSizeIn : ℝ
  mDensityIn : ℝ
  mEnvShapeIn : ℝ
  mPositionIn : ℝ
  mPitchIn : ℝ
  sampleRate : ℕ
  sampleTime : ℝ
  rand : ℕ → ℝ

/-- bool recActive = params[LIVE_REC_PARAM].getValue() > 0.5f. -/
def recActiveB (inp : TickInputs) : Bool := decide (inp.liveRec > 0.5)

/-- The record-start trigger block: the SchmittTrigger is driven with
10 V / 0 V, so it fires exactly when its state was low and the gate is
high, and its new state equals the gate.  On fire: resize (to 10 seconds
of audio) only if the buffer is under 44100 samples, zero-fill the whole
buffer, mark raw voltage, reset the head and the wrapped flag (the
isLoading flag is set and then cleared inside the block, so it ends
false). -/
def applyRecordStart (s : EngineState) (inp : TickInputs) : EngineState :=
  let recAct := recActiveB inp
  if recAct && !s.recTrigState then
    let doResize := s.audioBuffer.length < 44100
    let newLen := if doResize then inp.sampleRate * 10 else s.audioBuffer.length
    { s with recTrigState := recAct,
             audioBuffer := List.replicate newLen 0,
             fileSampleRate := if doResize then inp.sampleRate else s.fileSampleRate,
             bufferIsRawVoltage := true,
             recHead := 0,
             bufferWrapped := false,
             isLoading := false }
  else { s with recTrigState := recAct }

/-- The record-stop block: on the falling edge of the gate the active
length is finalized (full buffer if wrapped, else the write head, with a
44100-sample floor when the head is at most 100); then the previous-gate
memory and the isRecording flag are updated to the current gate. -/
def applyRecordStop (s : EngineState) (recAct : Bool) : EngineState :=
  let s1 :=
    if s.wasRecordingPrev && !recAct then
      { s with activeBufferLen :=
          if s.bufferWrapped then s.audioBuffer.length
          else if s.recHead > 100 then s.recHead else 44100 }
    else s
  { s1 with wasRecordingPrev := recAct, isRecording := recAct }

/-- The isRecording branch body: write the input voltage at the write
head (guarded), advance the head with ring wrap-around, and set the
active length to the full buffer size. -/
def recordTick (s : EngineState) (inV : ℝ) : EngineState :=
  if s.audioBuffer = [] then s
  else
    let buf :=
      if s.recHead < s.audioBuffer.length then s.audioBuffer.set s.recHead inV
      else s.audioBuffer
    let rh := s.recHead + 1
    if rh ≥ buf.length then
      { s with audioBuffer := buf, recHead := 0, bufferWrapped := true,
               activeBufferLen := buf.length }
    else
      { s with audioBuffer := buf, recHead := rh,
               activeBufferLen := buf.length }

/-- Construction of one new Grain inside the spawn block of
Granular::process: randomized position clamped into the loop region,
pitch as 2^(base + random octave offset), randomized envelope shape
frozen in, lifeIncrement derived from the grain length in samples
floored at 1. -/
def spawnGrain (lsN leN spawnPos rPos basePitchVolts rPitch envShapeB rShape
    sizeSec : ℝ) (fsr aLen : ℕ) (u2 u3 u4 : ℝ) : Grain :=
  let p0 := getClampedRandomizedValue spawnPos rPos u2
  let p1 := if p0 < lsN then lsN else p0
  let p2 := if p1 > leN then leN else p1
  let randOct := (u3 * 2 - 1) * (rPitch * 1)
  let gs0 := sizeSec * (fsr : ℝ)
  let gs := if gs0 < 1 then 1 else gs0
  { bufferPos := p2 * ((aLen : ℝ) - 1),
    life := 0,
    lifeIncrement := 1 / gs,
    playbackSpeed := Real.rpow 2 (basePitchVolts + randOct),
    finalEnvShape := getClampedRandomizedValue envShapeB rShape u4 }

/-- The standard playback section of Granular::process (everything after
the loading / empty / zero-length gate): loop-region computation, the
modulation and tempo-sync stage, spawn handling, the per-grain
sample+envelope accumulation, advancing, reaping, mixdown and output
shaping.  The per-grain loop reads each grain before advancing it and
grains are independent, so it is expressed as a map/sum over the
pre-advance pool followed by a map of advance. -/
def playbackTick (s : EngineState) (inp : TickInputs) : EngineState × ℝ :=
  let aLenR : ℝ := (s.activeBufferLen : ℝ)
  let loopStartNorm := min inp.startP inp.endP
  let loopEndNorm := max inp.startP inp.endP
  let le0 := loopEndNorm * (aLenR - 1)
  let ls0 := loopStartNorm * (aLenR - 1)
  let leS := if le0 ≥ aLenR then aLenR - 1 else le0
  let ls1 := if ls0 < 0 then 0 else ls0
  let lsS := if ls1 ≥ leS then leS - 1 else ls1
  let isSynced := inp.sync > 0.5
  let secondsPerBeat := 60 / inp.bpm
  let densityNorm :=
    rclamp (rescale inp.density 1 100 0 1 + inp.mDensityIn * inp.mDensity * 0.1) 0 1
  let densityRand := getClampedRandomizedValue densityNorm inp.rDensity (inp.rand 0)
  let densityHzFinal :=
    if isSynced then 1 / syncDensityPeriod densityRand secondsPerBeat
    else rescale densityRand 0 1 1 100
  let sizeNorm :=
    rclamp (rescale inp.size 0.01 2 0 1 + inp.mSizeIn * inp.mSize * 0.1) 0 1
  let sizeRand := getClampedRandomizedValue sizeNorm inp.rSize (inp.rand 1)
  let grainSizeSec :=
    if isSynced then secondsPerBeat * syncDivision (syncIndexOf sizeRand)
    else rescale sizeRand 0 1 0.01 2
  let envShapeB := rclamp (inp.envShape + inp.mEnvShapeIn * inp.mEnvShape * 0.1) 0 1
  let spawnPos := rclamp (inp.position + inp.mPositionIn * inp.mPosition * 0.1) 0 1
  let pitchKnob := rclamp (inp.pitch + inp.mPitchIn * inp.mPitch * 0.1) 0 1
  let basePitchVolts := (pitchKnob - 0.5) * 4
  let timer0 := s.grainSpawnTimer - inp.sampleTime
  let spawning := timer0 ≤ 0
  let timer1 := if spawning then 1 / densityHzFinal else timer0
  let grains1 :=
    if spawning ∧ s.grains.length < 128 then
      s.grains ++ [spawnGrain loopStartNorm loopEndNorm spawnPos inp.rPosition
        basePitchVolts inp.rPitch envShapeB inp.rEnvShape grainSizeSec
        s.fileSampleRate s.activeBufferLen (inp.rand 2) (inp.rand 3) (inp.rand 4)]
    else s.grains
  let out0 := (grains1.map (fun g =>
      g.getSample s.audioBuffer s.activeBufferLen * g.getEnvelope g.finalEnvShape)).sum
  let grains2 := grains1.map (fun g => g.advance lsS leS)
  let grains3 := reapGrains grains2
  ({ s with grains := grains3, grainSpawnTimer := timer1,
            grainSpawnPosition := spawnPos },
   outputShaper (mixdown grains3.length out0) inp.compression)

/-- One call of Granular::process: the record-start trigger, the
record-stop edge, the recording branch (which emits exactly 0), the
loading / empty-buffer / zero-length gate (which emits exactly 0), and
otherwise the playback section.  Returns the new state and the voltage
written to the audio output. -/
def process (s : EngineState) (inp : TickInputs) : EngineState × ℝ :=
  let recAct := recActiveB inp
  let s2 := applyRecordStop (applyRecordStart s inp) recAct
  if recAct then (recordTick s2 inp.inVoct, 0)
  else if s2.isLoading = true ∨ s2.audioBuffer = [] ∨ s2.activeBufferLen = 0 then
    (s2, 0)
  else playbackTick s2 inp

/-- The state of a freshly constructed Granular module. -/
def initState : EngineState :=
  { audioBuffer := [], fileSampleRate := 44100, activeBufferLen := 0,
    bufferIsRawVoltage := false, grains := [], grainSpawnTimer := 0,
    grainSpawnPosition := 0, isLoading := false, isRecording := false,
    recHead := 0, wasRecordingPrev := false, bufferWrapped := false,
    recTrigState := false }

/-- Granular::setBuffer (file load handoff): replace the buffer
wholesale, set the active length to the new size, clear the grains. -/
def setBuffer (s : EngineState) (newBuffer : List ℝ) (sr : ℕ) : EngineState :=
  { s with
    audioBuffer := newBuffer, activeBufferLen := newBuffer.length,
    fileSampleRate := sr, grains := [], bufferIsRawVoltage := false,
    isLoading := false, isRecording := false }

/-- Written from the words of the C3 claim (refinement target, not from
the source): both interpolation indices obtained from floor(pos) and
floor(pos)+1 by hard clamping into [0, activeLen-1], with
frac = pos - floor(pos). -/
def specClampedSample (buffer : List ℝ) (len : ℕ) (pos : ℝ) : ℝ :=
  let f := ⌊pos⌋
  let frac := pos - (f : ℝ)
  let cl : ℤ → ℤ := fun i => max (min i ((len : ℤ) - 1)) 0
  (1 - frac) * buffer.getD (cl f).toNat 0 + frac * buffer.getD (cl (f + 1)).toNat 0

/-- Run invariant of the engine: whenever the previous tick had the
record gate high, the active length was left non-zero by that tick
unless the buffer itself is empty.  It holds of the initial state and is
preserved by every process step and by setBuffer. -/
def recInv (s : EngineState) : Prop :=
  s.wasRecordingPrev = true → s.activeBufferLen ≠ 0 ∨ s.audioBuffer = []

/-- A concrete tick input with every knob, CV and random draw at 0 and
the host at 44.1 kHz (record gate low). -/
def zeroInputs : TickInputs :=
  { compression := 0, size := 0, density := 0, envShape := 0, position := 0,
    pitch := 0, rSize := 0, rDensity := 0, rEnvShape := 0, rPosition := 0,
    rPitch := 0, mSize := 0, mDensity := 0, mEnvShape := 0, mPosition := 0,
    mPitch := 0, startP := 0, endP := 0, liveRec := 0, bpm := 120, sync := 0,
    inVoct := 0, mSizeIn := 0, mDensityIn := 0, mEnvShapeIn := 0,
    mPositionIn := 0, mPitchIn := 0, sampleRate := 44100, sampleTime := 0,
    rand := fun _ => 0 }

/-- Tick inputs for a capture tick: record gate high, voltage v at the
shared audio input. -/
def recInputs (sr : ℕ) (v : ℝ) : TickInputs :=
  { zeroInputs with liveRec := 1, inVoct := v, sampleRate := sr }

/-- Tick inputs for the tick that stops the capture (gate back low). -/
def stopInputs : TickInputs := zeroInputs

/-- Fold the process step over a list of input voltages, with the record
gate held high. -/
def runRecord (sr : ℕ) (s : EngineState) (vs : List ℝ) : EngineState :=
  vs.foldl (fun st v => (process st (recInputs sr v)).1) s

/-- The engine state in the middle of a live capture at sample rate sr
that has written the samples ws (no wrap yet): the 10-second buffer
holds ws followed by the zero fill, and the write head sits after ws. -/
def recMidState (sr : ℕ) (ws : List ℝ) : EngineState :=
  { audioBuffer := ws ++ List.replicate (sr * 10 - ws.length) 0,
    fileSampleRate := sr, activeBufferLen := sr * 10,
    bufferIsRawVoltage := true, grains := [], grainSpawnTimer := 0,
    grainSpawnPosition := 0, isLoading := false, isRecording := true,
    recHead := ws.length, wasRecordingPrev := true, bufferWrapped := false,
    recTrigState := true }

/-- A state holding a short previously trimmed live clip: a 3-sample
buffer whose active length was trimmed to 2, with the record gate idle. -/
def shortClipState : EngineState :=
  { audioBuffer := [1, 2, 3], fileSampleRate := 44100,
    activeBufferLen := 2, bufferIsRawVoltage := true, grains := [],
    grainSpawnTimer := 0, grainSpawnPosition := 0, isLoading := false,
    isRecording := false, recHead := 2, wasRecordingPrev := false,
    bufferWrapped := false, recTrigState := false }

/-- A state in the middle of a capture into a small 3-sample buffer,
with a stale activeBufferLen of 2. -/
def captureMidSmall : EngineState :=
  { audioBuffer := [1, 2, 3], fileSampleRate := 44100,
    activeBufferLen := 2, bufferIsRawVoltage := true, grains := [],
    grainSpawnTimer := 0, grainSpawnPosition := 0, isLoading := false,
    isRecording := true, recHead := 1, wasRecordingPrev := true,
    bufferWrapped := false, recTrigState := true }

end

lemma ctrunc_of_nonneg {x : ℝ} (h : 0 ≤ x) : ctrunc x = ⌊x⌋ := if_pos h

lemma cfmod_nonneg {x y : ℝ} (hx : 0 ≤ x) (hy : 0 < y) : 0 ≤ cfmod x y := by
  have hq : 0 ≤ x / y := div_nonneg hx hy.le
  rw [cfmod, ctrunc_of_nonneg hq]
  have h1 : y * (⌊x / y⌋ : ℝ) ≤ y * (x / y) :=
    mul_le_mul_of_nonneg_left (Int.floor_le _) hy.le
  have h2 : y * (x / y) = x := by field_simp
  linarith

lemma cfmod_lt {x y : ℝ} (hx : 0 ≤ x) (hy : 0 < y) : cfmod x y < y := by
  have hq : 0 ≤ x / y := div_nonneg hx hy.le
  rw [cfmod, ctrunc_of_nonneg hq]
  have h1 : y * (x / y - 1) < y * (⌊x / y⌋ : ℝ) :=
    mul_lt_mul_of_pos_left (Int.sub_one_lt_floor _) hy
  have h2 : y * (x / y) = x := by field_simp
  nlinarith

/-- C5: the post-reap mixdown divides the accumulated grain sum by the
square root of the live grain count when the pool is non-empty, so n
grains of constant amplitude a mix to a * sqrt n; with an empty pool the
sum is 0 and the shaped tick output is exactly 0. -/
theorem c5_mixdown_sqrt_compensation :
    (∀ (n : ℕ) (a : ℝ), mixdown n (List.replicate n a).sum = a * Real.sqrt n) ∧
    (∀ c : ℝ, outputShaper (mixdown 0 (List.replicate 0 (0 : ℝ)).sum) c = 0) := by
  constructor
  · intro n a
    rcases Nat.eq_zero_or_pos n with h | h
    · subst h; simp [mixdown]
    · have hsum : (List.replicate n a).sum = (n : ℝ) * a := by
        rw [List.sum_replicate]; simp [nsmul_eq_mul]
      rw [mixdown, if_neg h.ne', hsum, mul_comm (n : ℝ) a, mul_div_assoc,
        Real.div_sqrt]
  · intro c
    simp [mixdown, outputShaper]

/-- C4: in sync mode the normalized density value is inverted before the
table lookup, so density 1.0 maps to index 0 (the 1/32 division, the
fastest) and density 0.0 maps to index 7 (4 bars, the slowest); the
spawn period is secondsPerBeat times the division multiplier floored at
the 1e-4 epsilon, and for bpm 120 with the 1/4 division (multiplier
0.25) the period is exactly (60/120) * 0.25 = 0.125 s. -/
theorem c4_sync_density_inverted_mapping :
    syncIndexOf (1 - 1) = 0 ∧ syncDivision 0 = 0.03125 ∧
    syncIndexOf (1 - 0) = 7 ∧ syncDivision 7 = 4 ∧
    (∀ d spb : ℝ,
      syncDensityPeriod d spb
        = max (spb * syncDivision (syncIndexOf (1 - d))) 0.0001) ∧
    (∀ d : ℝ, syncIndexOf (1 - d) = 3 → syncDensityPeriod d (60 / 120) = 0.125) := by
  refine ⟨?_, rfl, ?_, rfl, ?_, ?_⟩
  · norm_num [syncIndexOf, ctrunc, iclamp, Int.floor_eq_iff]
  · norm_num [syncIndexOf, ctrunc, iclamp, Int.floor_eq_iff]
  · intro d spb
    rw [syncDensityPeriod]
    rcases lt_or_le (spb * syncDivision (syncIndexOf (1 - d))) 0.0001 with h | h
    · rw [if_pos h, max_eq_right h.le]
    · rw [if_neg (not_lt.mpr h), max_eq_left h]
  · intro d h
    have h3 : syncDivision 3 = 0.25 := rfl
    rw [syncDensityPeriod, h, h3]
    norm_num

/-- Witness for C4: the concrete density value 0.6 lands on table index
3 (the 1/4 division) and yields the exact 0.125 s period at 120 bpm. -/
theorem c4_witness :
    syncIndexOf (1 - 0.6) = 3 ∧ syncDensityPeriod 0.6 (60 / 120) = 0.125 := by
  have h : syncIndexOf (1 - 0.6) = 3 := by
    norm_num [syncIndexOf, ctrunc, iclamp, Int.floor_eq_iff]
  exact ⟨h, c4_sync_density_inverted_mapping.2.2.2.2.2 0.6 h⟩

/-- C7: the envelope blend is continuous in the shape control at 0.5
(the left branch at 0.5 and the right-branch one-sided limit both give
the triangle), is identically 1 for shape 0 (square), and for shape 1
(sine) its value at life 0 equals its one-sided limit as life tends to 1
(both 0). -/
theorem c7_envelope_shape_boundaries :
    (∀ life : ℝ, grainEnvelope 0.5 life = shapeTriangle life) ∧
    (∀ life : ℝ,
      Filter.Tendsto (fun sh => grainEnvelope sh life)
        (nhdsWithin 0.5 (Set.Ioi 0.5)) (nhds (shapeTriangle life))) ∧
    (∀ life : ℝ, grainEnvelope 0 life = 1) ∧
    grainEnvelope 1 0 = 0 ∧
    Filter.Tendsto (fun life => grainEnvelope 1 life)
      (nhdsWithin 1 (Set.Iio 1)) (nhds 0) := by
  have hone : ∀ l : ℝ, grainEnvelope 1 l = shapeSine l := by
    intro l
    rw [grainEnvelope, if_neg (by norm_num)]
    norm_num
  refine ⟨?_, ?_, ?_, ?_, ?_⟩
  · intro life
    rw [grainEnvelope, if_pos le_rfl]
    norm_num
  · intro life
    have hc : Continuous (fun sh : ℝ =>
        (1 - (sh - 0.5) * 2) * shapeTriangle life + ((sh - 0.5) * 2) * shapeSine life) := by
      continuity
    have h0 : Filter.Tendsto (fun sh : ℝ =>
        (1 - (sh - 0.5) * 2) * shapeTriangle life + ((sh - 0.5) * 2) * shapeSine life)
        (nhdsWithin 0.5 (Set.Ioi 0.5)) (nhds (shapeTriangle life)) := by
      have := (hc.tendsto 0.5).mono_left (nhdsWithin_le_nhds (s := Set.Ioi (0.5 : ℝ)))
      convert this using 2
      norm_num
    apply Filter.Tendsto.congr' _ h0
    filter_upwards [self_mem_nhdsWithin] with sh hs
    rw [grainEnvelope, if_neg (not_le.mpr hs)]
  · intro life
    rw [grainEnvelope, if_pos (by norm_num)]
    norm_num
  · rw [hone 0, shapeSine]
    norm_num
  · have hc : Continuous shapeSine := by unfold shapeSine; continuity
    have h1 : shapeSine 1 = 0 := by
      rw [shapeSine, mul_one, Real.cos_two_pi]; ring
    have := (hc.tendsto 1).mono_left (nhdsWithin_le_nhds (s := Set.Iio (1 : ℝ)))
    rw [h1] at this
    exact this.congr (fun l => (hone l).symm)


/-- C9: for a loop region wider than the negligible-width threshold,
Grain::advance always lands the position inside [loopStart, loopEnd), so
in particular it stays there once a wrap has occurred; on overflow the
new position is loopStart + fmod(position - loopEnd, width), and a
position falling below loopStart is clamped to loopStart. -/
theorem c9_advance_stays_in_loop (g : Grain) (ls le : ℝ)
    (h : le - ls > 0.00001) :
    (ls ≤ (g.advance ls le).bufferPos ∧ (g.advance ls le).bufferPos < le) ∧
    (g.bufferPos + g.playbackSpeed ≥ le →
      (g.advance ls le).bufferPos
        = ls + cfmod (g.bufferPos + g.playbackSpeed - le) (le - ls)) ∧
    (g.bufferPos + g.playbackSpeed < ls → (g.advance ls le).bufferPos = ls) := by
  have hw : (0 : ℝ) < le - ls := by linarith
  have hlt : ls < le := by linarith
  simp only [Grain.advance]
  by_cases h1 : g.bufferPos + g.playbackSpeed ≥ le
  · rw [if_pos h1, if_pos h]
    have hov : 0 ≤ g.bufferPos + g.playbackSpeed - le := by linarith
    refine ⟨⟨?_, ?_⟩, fun _ => rfl, fun hc => absurd hc (by linarith)⟩
    · have := cfmod_nonneg hov hw
      linarith
    · have := cfmod_lt hov hw
      linarith
  · rw [if_neg h1]
    by_cases h3 : g.bufferPos + g.playbackSpeed < ls
    · rw [if_pos h3]
      exact ⟨⟨le_rfl, hlt⟩, fun hc => absurd hc h1, fun _ => rfl⟩
    · rw [if_neg h3]
      refine ⟨⟨le_of_not_lt h3, lt_of_not_ge h1⟩,
        fun hc => absurd hc h1, fun hc => absurd hc h3⟩

/-- Witness for C9: a grain at position 5 with speed 3 in the loop
region [0, 4) wraps back into the region. -/
theorem c9_witness :
    (4 : ℝ) - 0 > 0.00001 ∧
    ((0 : ℝ) ≤ ((Grain.mk 5 0 0 3 0).advance 0 4).bufferPos ∧
      ((Grain.mk 5 0 0 3 0).advance 0 4).bufferPos < 4) :=
  ⟨by norm_num, (c9_advance_stays_in_loop (Grain.mk 5 0 0 3 0) 0 4 (by norm_num)).1⟩

/-- C8: advance adds the lifeIncrement of the grain to life (strictly
increasing whenever the increment is positive, and every grain built by
the spawn block has a strictly positive increment); the reap pass keeps
exactly the grains with life < 1, and every grain still in the pool
after a playback tick has life < 1. -/
theorem c8_life_monotone_and_reap :
    (∀ (g : Grain) (ls le : ℝ),
      (g.advance ls le).life = g.life + g.lifeIncrement) ∧
    (∀ (g : Grain) (ls le : ℝ),
      0 < g.lifeIncrement → g.life < (g.advance ls le).life) ∧
    (∀ (lsN leN spawnPos rPos bpv rPit env rShape sizeSec : ℝ)
        (fsr aLen : ℕ) (u2 u3 u4 : ℝ),
      0 < (spawnGrain lsN leN spawnPos rPos bpv rPit env rShape sizeSec
        fsr aLen u2 u3 u4).lifeIncrement) ∧
    (∀ (gs : List Grain) (g : Grain),
      g ∈ reapGrains gs ↔ g ∈ gs ∧ g.life < 1) ∧
    (∀ (s : EngineState) (inp : TickInputs) (g : Grain),
      g ∈ (playbackTick s inp).1.grains → g.life < 1) := by
  have hadv : ∀ (g : Grain) (ls le : ℝ),
      (g.advance ls le).life = g.life + g.lifeIncrement := by
    intro g ls le
    simp [Grain.advance]
  have hreap : ∀ (gs : List Grain) (g : Grain),
      g ∈ reapGrains gs ↔ g ∈ gs ∧ g.life < 1 := by
    intro gs g
    simp [reapGrains, List.mem_filter]
  refine ⟨hadv, ?_, ?_, hreap, ?_⟩
  · intro g ls le h
    rw [hadv]
    linarith
  · intro lsN leN spawnPos rPos bpv rPit env rShape sizeSec fsr aLen u2 u3 u4
    simp only [spawnGrain]
    apply one_div_pos.mpr
    split_ifs with h
    · exact one_pos
    · linarith [not_lt.mp h]
  · intro s inp g hg
    simp only [playbackTick] at hg
    exact ((hreap _ g).mp hg).2

/-- Witness for C8: a grain with lifeIncrement 1/2 strictly ages under
advance, and a dead grain (life 3/2) is exactly what reap removes. -/
theorem c8_witness :
    (0 : ℝ) < (Grain.mk 0 0 (1/2) 1 0).lifeIncrement ∧
    (Grain.mk 0 0 (1/2) 1 0).life < ((Grain.mk 0 0 (1/2) 1 0).advance 0 10).life ∧
    ((Grain.mk 0 (3/2) 0 0 0) ∈ reapGrains [Grain.mk 0 (3/2) 0 0 0] ↔
      (Grain.mk 0 (3/2) 0 0 0) ∈ [Grain.mk 0 (3/2) 0 0 0] ∧
        (Grain.mk 0 (3/2) 0 0 0).life < 1) := by
  refine ⟨by norm_num, ?_, c8_life_monotone_and_reap.2.2.2.1 _ _⟩
  exact c8_life_monotone_and_reap.2.1 _ 0 10 (by norm_num)

/-- C10: Grain::getSample is total and reads in bounds: for any
activeLen of at least 1 both post-clamp indices lie inside
[0, activeLen-1] for every real position (negative positions and
positions at or past activeLen included), and when the buffer is empty
or activeLen is 0 the guard returns exactly 0 before any index
computation or buffer read. -/
theorem c10_getSample_total_inbounds :
    (∀ (pos : ℝ) (len : ℕ), 1 ≤ len →
      (0 ≤ sampleIdx1 pos len ∧ sampleIdx1 pos len ≤ (len : ℤ) - 1) ∧
      (0 ≤ sampleIdx2 pos len ∧ sampleIdx2 pos len ≤ (len : ℤ) - 1)) ∧
    (∀ (g : Grain) (buffer : List ℝ) (len : ℕ), buffer = [] ∨ len = 0 →
      g.getSample buffer len = 0) := by
  constructor
  · intro pos len hlen
    have hl : (1 : ℤ) ≤ (len : ℤ) := by exact_mod_cast hlen
    constructor
    · simp only [sampleIdx1]
      split_ifs <;> omega
    · simp only [sampleIdx2]
      split_ifs <;> omega
  · intro g buffer len h
    rw [Grain.getSample, if_pos h]

/-- Witness for C10: the position -11/2 with activeLen 4 stays in
bounds, and the empty buffer yields exactly 0. -/
theorem c10_witness :
    ((1 : ℕ) ≤ 4 ∧
      ((0 ≤ sampleIdx1 (-11/2) 4 ∧ sampleIdx1 (-11/2) 4 ≤ ((4 : ℕ) : ℤ) - 1) ∧
       (0 ≤ sampleIdx2 (-11/2) 4 ∧ sampleIdx2 (-11/2) 4 ≤ ((4 : ℕ) : ℤ) - 1))) ∧
    ((([] : List ℝ) = [] ∨ (0 : ℕ) = 0) ∧
      (Grain.mk (-11/2) 0 0 0 0).getSample [] 0 = 0) :=
  ⟨⟨by norm_num, c10_getSample_total_inbounds.1 (-11/2) 4 (by norm_num)⟩,
   ⟨Or.inl rfl, c10_getSample_total_inbounds.2 _ [] 0 (Or.inl rfl)⟩⟩

lemma getSample_unfold (g : Grain) (buffer : List ℝ) (len : ℕ)
    (hbne : buffer ≠ []) (hlen : len ≠ 0) :
    g.getSample buffer len =
      (1 - (g.bufferPos - (sampleIdx1Raw g.bufferPos : ℝ))) *
          buffer.getD (sampleIdx1 g.bufferPos len).toNat 0 +
        (g.bufferPos - (sampleIdx1Raw g.bufferPos : ℝ)) *
          buffer.getD (sampleIdx2 g.bufferPos len).toNat 0 := by
  rw [Grain.getSample, if_neg (by simp [hbne, hlen])]

/-- Counterexample for C3: at position 3.5 with activeLength 4 the code
computes index2 = (3 + 1) % 4 = 0 (wrap) before clamping, so it
interpolates between the last and the first sample; the claimed
clamped-not-wrapped formula would interpolate with both indices clamped
to 3.  On the buffer [1, 2, 3, 4] the code yields 2.5, the claim 4. -/
theorem c3_counterexample :
    (Grain.mk ((7 : ℝ)/2) 0 0 0 0).getSample [1, 2, 3, 4] 4 ≠
      specClampedSample [1, 2, 3, 4] 4 ((7 : ℝ)/2) := by
  have hfl : ⌊(7 : ℝ)/2⌋ = 3 := by norm_num [Int.floor_eq_iff]
  have hraw : sampleIdx1Raw ((7 : ℝ)/2) = 3 := by
    rw [sampleIdx1Raw, ctrunc, if_pos (by norm_num), hfl]
  have hraw2 : sampleIdx2Raw ((7 : ℝ)/2) 4 = 0 := by
    rw [sampleIdx2Raw, hraw]
    decide
  have hidx1 : sampleIdx1 ((7 : ℝ)/2) 4 = 3 := by
    simp only [sampleIdx1, hraw]
    norm_num
  have hidx2 : sampleIdx2 ((7 : ℝ)/2) 4 = 0 := by
    simp only [sampleIdx2, hraw2]
    norm_num
  have e4 : ([1, 2, 3, 4] : List ℝ).getD ((3 : ℤ).toNat) 0 = 4 := rfl
  have e1 : ([1, 2, 3, 4] : List ℝ).getD ((0 : ℤ).toNat) 0 = 1 := rfl
  have hL : (Grain.mk ((7 : ℝ)/2) 0 0 0 0).getSample [1, 2, 3, 4] 4 = 5/2 := by
    rw [getSample_unfold _ _ _ (by simp) (by norm_num)]
    simp only [hidx1, hidx2, hraw]
    rw [e4, e1]
    push_cast
    norm_num
  have hR : specClampedSample [1, 2, 3, 4] 4 ((7 : ℝ)/2) = 4 := by
    have hcl1 : max (min (3 : ℤ) (((4 : ℕ) : ℤ) - 1)) 0 = 3 := by decide
    have hcl2 : max (min ((3 : ℤ) + 1) (((4 : ℕ) : ℤ) - 1)) 0 = 3 := by decide
    simp only [specClampedSample, hfl, hcl1, hcl2]
    rw [e4]
    push_cast
    norm_num
  rw [hL, hR]
  norm_num

/-- C3 amended: for grain positions inside [0, activeLength-1] (which is
where the engine keeps every live grain), the returned value is the
linear interpolation (1-frac)*buffer[floor(pos)] +
frac*buffer[clamp(floor(pos)+1)] with frac = pos - floor(pos) and both
indices clamped into [0, activeLength-1]; beyond that range index2 is
wrapped by the modulo, not clamped (see the counterexample).  The bound
activeLen <= 2^63 reflects the 64-bit size_t conversion in the source. -/
theorem c3_amended_clamped_interpolation (g : Grain) (buffer : List ℝ)
    (len : ℕ) (h1 : 1 ≤ len) (h2 : len ≤ buffer.length)
    (h3 : (len : ℤ) ≤ 2 ^ 63) (h4 : 0 ≤ g.bufferPos)
    (h5 : g.bufferPos ≤ (len : ℝ) - 1) :
    g.getSample buffer len = specClampedSample buffer len g.bufferPos := by
  have hbne : buffer ≠ [] := by
    intro hb
    rw [hb] at h2
    simp at h2
    omega
  have hlen0 : len ≠ 0 := by omega
  have hraw : sampleIdx1Raw g.bufferPos = ⌊g.bufferPos⌋ := ctrunc_of_nonneg h4
  have hk0 : 0 ≤ ⌊g.bufferPos⌋ := Int.floor_nonneg.mpr h4
  have hkle : ⌊g.bufferPos⌋ ≤ (len : ℤ) - 1 := by
    calc ⌊g.bufferPos⌋ ≤ ⌊(len : ℝ) - 1⌋ := Int.floor_le_floor h5
      _ = (len : ℤ) - 1 := by
          rw [show ((len : ℝ) - 1) = (((len : ℤ) - 1 : ℤ) : ℝ) by push_cast; ring,
            Int.floor_intCast]
  have hidx1 : sampleIdx1 g.bufferPos len = ⌊g.bufferPos⌋ := by
    simp only [sampleIdx1, hraw]
    rw [if_neg (by omega), if_neg (by omega)]
  have hemod64 : (⌊g.bufferPos⌋ + 1).emod (2 ^ 64) = ⌊g.bufferPos⌋ + 1 :=
    Int.emod_eq_of_lt (by omega) (by omega)
  rcases lt_or_eq_of_le (show ⌊g.bufferPos⌋ + 1 ≤ (len : ℤ) by omega) with hlt | heq
  · have hidx2 : sampleIdx2 g.bufferPos len = ⌊g.bufferPos⌋ + 1 := by
      have hmod : (⌊g.bufferPos⌋ + 1).emod (len : ℤ) = ⌊g.bufferPos⌋ + 1 :=
        Int.emod_eq_of_lt (by omega) hlt
      simp only [sampleIdx2, sampleIdx2Raw, hraw, hemod64, hmod]
      rw [if_neg (by omega), if_neg (by omega)]
    rw [getSample_unfold _ _ _ hbne hlen0, specClampedSample]
    simp only [hidx1, hidx2, hraw]
    rw [min_eq_left hkle, max_eq_left hk0,
      min_eq_left (by omega : ⌊g.bufferPos⌋ + 1 ≤ (len : ℤ) - 1),
      max_eq_left (by omega : (0 : ℤ) ≤ ⌊g.bufferPos⌋ + 1)]
  · have hposk : g.bufferPos = (⌊g.bufferPos⌋ : ℝ) := by
      have hle1 : (⌊g.bufferPos⌋ : ℝ) ≤ g.bufferPos := Int.floor_le _
      have hcast : ((len : ℤ) : ℝ) = (⌊g.bufferPos⌋ : ℝ) + 1 := by
        rw [← heq]
        push_cast
        ring
      have hle2 : g.bufferPos ≤ (⌊g.bufferPos⌋ : ℝ) := by
        have hc2 : ((len : ℤ) : ℝ) = (len : ℝ) := by push_cast; ring
        linarith [h5, hcast, hc2]
      linarith
    have hfrac : g.bufferPos - (⌊g.bufferPos⌋ : ℝ) = 0 := by linarith [hposk]
    have hcl1 : max (min ⌊g.bufferPos⌋ ((len : ℤ) - 1)) 0 = ⌊g.bufferPos⌋ := by
      omega
    have hcl2 : max (min (⌊g.bufferPos⌋ + 1) ((len : ℤ) - 1)) 0 = ⌊g.bufferPos⌋ := by
      omega
    rw [getSample_unfold _ _ _ hbne hlen0, specClampedSample]
    simp only [hraw, hidx1, hcl1, hcl2, hfrac]
    ring

/-- Witness for C3 amended: the in-range position 1.5 in a 4-sample
buffer satisfies all the hypotheses and the clamped formula. -/
theorem c3_witness :
    ((1 : ℕ) ≤ 4 ∧ 4 ≤ ([1, 2, 3, 4] : List ℝ).length ∧
      ((4 : ℕ) : ℤ) ≤ 2 ^ 63 ∧
      (0 : ℝ) ≤ (Grain.mk ((3 : ℝ)/2) 0 0 0 0).bufferPos ∧
      (Grain.mk ((3 : ℝ)/2) 0 0 0 0).bufferPos ≤ ((4 : ℕ) : ℝ) - 1) ∧
    (Grain.mk ((3 : ℝ)/2) 0 0 0 0).getSample [1, 2, 3, 4] 4 =
      specClampedSample [1, 2, 3, 4] 4 (Grain.mk ((3 : ℝ)/2) 0 0 0 0).bufferPos :=
  ⟨⟨by norm_num, by simp, by norm_num, by norm_num, by norm_num⟩,
   c3_amended_clamped_interpolation _ _ _ (by norm_num) (by simp) (by norm_num)
     (by norm_num) (by norm_num)⟩

lemma applyRecordStart_noFire (s : EngineState) (inp : TickInputs)
    (h : s.recTrigState = true ∨ recActiveB inp = false) :
    applyRecordStart s inp = { s with recTrigState := recActiveB inp } := by
  rw [applyRecordStart]
  rcases h with h | h <;> simp [h]

lemma applyRecordStop_isLoading (s : EngineState) (recAct : Bool) :
    (applyRecordStop s recAct).isLoading = s.isLoading := by
  rw [applyRecordStop]
  split <;> rfl

lemma applyRecordStop_audioBuffer (s : EngineState) (recAct : Bool) :
    (applyRecordStop s recAct).audioBuffer = s.audioBuffer := by
  rw [applyRecordStop]
  split <;> rfl

lemma applyRecordStop_wasPrev (s : EngineState) (recAct : Bool) :
    (applyRecordStop s recAct).wasRecordingPrev = recAct := by
  rw [applyRecordStop]

lemma applyRecordStop_activeLen_noEdge (s : EngineState) (recAct : Bool)
    (h : s.wasRecordingPrev = false ∨ recAct = true) :
    (applyRecordStop s recAct).activeBufferLen = s.activeBufferLen := by
  rw [applyRecordStop]
  rcases h with h | h <;> simp [h]

lemma applyRecordStop_activeLen_edge (s : EngineState)
    (h : s.wasRecordingPrev = true) :
    (applyRecordStop s false).activeBufferLen =
      if s.bufferWrapped then s.audioBuffer.length
      else if s.recHead > 100 then s.recHead else 44100 := by
  rw [applyRecordStop]
  simp [h]

lemma playbackTick_preserves (s : EngineState) (inp : TickInputs) :
    (playbackTick s inp).1.audioBuffer = s.audioBuffer ∧
    (playbackTick s inp).1.activeBufferLen = s.activeBufferLen ∧
    (playbackTick s inp).1.recHead = s.recHead ∧
    (playbackTick s inp).1.wasRecordingPrev = s.wasRecordingPrev ∧
    (playbackTick s inp).1.isRecording = s.isRecording ∧
    (playbackTick s inp).1.isLoading = s.isLoading ∧
    (playbackTick s inp).1.bufferWrapped = s.bufferWrapped ∧
    (playbackTick s inp).1.recTrigState = s.recTrigState ∧
    (playbackTick s inp).1.fileSampleRate = s.fileSampleRate := by
  simp [playbackTick]

lemma process_recording (s : EngineState) (inp : TickInputs)
    (hR : recActiveB inp = true) :
    process s inp =
      (recordTick (applyRecordStop (applyRecordStart s inp) true) inp.inVoct,
        0) := by
  simp only [process, hR]
  rw [if_pos trivial]

lemma process_gate (s : EngineState) (inp : TickInputs)
    (hR : recActiveB inp = false)
    (hg : (applyRecordStop (applyRecordStart s inp) false).isLoading = true ∨
      (applyRecordStop (applyRecordStart s inp) false).audioBuffer = [] ∨
      (applyRecordStop (applyRecordStart s inp) false).activeBufferLen = 0) :
    process s inp = (applyRecordStop (applyRecordStart s inp) false, 0) := by
  simp only [process, hR]
  rw [if_neg (by decide), if_pos hg]

lemma process_playback (s : EngineState) (inp : TickInputs)
    (hR : recActiveB inp = false)
    (hg : ¬((applyRecordStop (applyRecordStart s inp) false).isLoading = true ∨
      (applyRecordStop (applyRecordStart s inp) false).audioBuffer = [] ∨
      (applyRecordStop (applyRecordStart s inp) false).activeBufferLen = 0)) :
    process s inp =
      playbackTick (applyRecordStop (applyRecordStart s inp) false) inp := by
  simp only [process, hR]
  rw [if_neg (by decide), if_neg hg]

lemma recActiveB_false_of_not_true {inp : TickInputs}
    (h : ¬recActiveB inp = true) : recActiveB inp = false := by
  cases hb : recActiveB inp
  · rfl
  · exact absurd hb h

lemma recInv_initState : recInv initState := by
  intro h
  simp [initState] at h

lemma recInv_setBuffer (s : EngineState) (nb : List ℝ) (sr : ℕ) :
    recInv (setBuffer s nb sr) := by
  intro _
  cases nb with
  | nil => exact Or.inr rfl
  | cons a l => exact Or.inl (by simp [setBuffer])

lemma recInv_process (s : EngineState) (inp : TickInputs) :
    recInv (process s inp).1 := by
  by_cases hR : recActiveB inp = true
  · rw [process_recording s inp hR]
    intro _
    rw [recordTick]
    by_cases hb : (applyRecordStop (applyRecordStart s inp) true).audioBuffer = []
    · rw [if_pos hb]
      exact Or.inr hb
    · rw [if_neg hb]
      left
      split
      · simp only
        split <;> simp_all [List.length_eq_zero]
      · simp only
        split <;> simp_all [List.length_eq_zero]
  · have hR' : recActiveB inp = false := recActiveB_false_of_not_true hR
    by_cases hg : (applyRecordStop (applyRecordStart s inp) false).isLoading = true ∨
      (applyRecordStop (applyRecordStart s inp) false).audioBuffer = [] ∨
      (applyRecordStop (applyRecordStart s inp) false).activeBufferLen = 0
    · rw [process_gate s inp hR' hg]
      intro hw
      rw [applyRecordStop_wasPrev] at hw
      exact absurd hw (by decide)
    · rw [process_playback s inp hR' hg]
      intro hw
      rw [(playbackTick_preserves _ _).2.2.2.1, applyRecordStop_wasPrev] at hw
      exact absurd hw (by decide)

/-- C1: on every tick in which the loading flag is set, or the record
gate is active (isRecording for this tick), or the buffer is empty, or
the active length is 0, the process step writes exactly 0 to the audio
output, for every knob, CV and random value.  The hypothesis recInv is
an invariant of the engine (it holds of the initial state and is
preserved by every process step and by setBuffer, see recInv_initState,
recInv_process, recInv_setBuffer), so the statement covers every
reachable tick. -/
theorem c1_silent_when_unready (s : EngineState) (inp : TickInputs)
    (hInv : recInv s)
    (h : s.isLoading = true ∨ recActiveB inp = true ∨ s.audioBuffer = [] ∨
      s.activeBufferLen = 0) :
    (process s inp).2 = 0 := by
  by_cases hR : recActiveB inp = true
  · rw [process_recording s inp hR]
  · have hR' : recActiveB inp = false := recActiveB_false_of_not_true hR
    have hs1 : applyRecordStart s inp = { s with recTrigState := recActiveB inp } :=
      applyRecordStart_noFire s inp (Or.inr hR')
    have hgate : (applyRecordStop (applyRecordStart s inp) false).isLoading = true ∨
        (applyRecordStop (applyRecordStart s inp) false).audioBuffer = [] ∨
        (applyRecordStop (applyRecordStart s inp) false).activeBufferLen = 0 := by
      rw [hs1]
      rcases h with h | h | h | h
      · exact Or.inl (by rw [applyRecordStop_isLoading]; simpa using h)
      · exact absurd h hR
      · refine Or.inr (Or.inl ?_)
        rw [applyRecordStop_audioBuffer]
        simpa using h
      · cases hb : s.wasRecordingPrev
        · refine Or.inr (Or.inr ?_)
          rw [applyRecordStop_activeLen_noEdge _ _ (Or.inl (by simp [hb]))]
          simpa using h
        · rcases hInv hb with hne | hemp
          · exact absurd h hne
          · refine Or.inr (Or.inl ?_)
            rw [applyRecordStop_audioBuffer]
            simpa using hemp
    rw [process_gate s inp hR' hgate]

/-- Witness for C1: the freshly constructed module (empty buffer, zero
active length) emits 0 on a tick with every control at zero. -/
theorem c1_witness :
    recInv initState ∧
    (initState.isLoading = true ∨ recActiveB zeroInputs = true ∨
      initState.audioBuffer = [] ∨ initState.activeBufferLen = 0) ∧
    (process initState zeroInputs).2 = 0 :=
  ⟨recInv_initState,
   Or.inr (Or.inr (Or.inl rfl)),
   c1_silent_when_unready initState zeroInputs recInv_initState
     (Or.inr (Or.inr (Or.inl rfl)))⟩

lemma applyRecordStop_noEdge (s : EngineState) (recAct : Bool)
    (h : s.wasRecordingPrev = false ∨ recAct = true) :
    applyRecordStop s recAct =
      { s with wasRecordingPrev := recAct, isRecording := recAct } := by
  rw [applyRecordStop]
  rcases h with h | h <;> simp [h]

lemma recActiveB_recInputs (sr : ℕ) (v : ℝ) :
    recActiveB (recInputs sr v) = true := by
  simp only [recActiveB, recInputs, decide_eq_true_eq]
  norm_num

lemma recActiveB_stopInputs : recActiveB stopInputs = false := by
  simp only [recActiveB, stopInputs, zeroInputs, decide_eq_false_iff_not]
  norm_num

lemma recordTick_activeLen (s : EngineState) (v : ℝ)
    (hb : s.audioBuffer ≠ []) :
    (recordTick s v).activeBufferLen = s.audioBuffer.length := by
  rw [recordTick, if_neg hb]
  rw [apply_ite EngineState.activeBufferLen]
  simp [apply_ite List.length]

lemma recordTick_eq (s : EngineState) (v : ℝ)
    (hb : s.audioBuffer ≠ []) (hlt : s.recHead < s.audioBuffer.length)
    (hnw : ¬s.recHead + 1 ≥ s.audioBuffer.length) :
    recordTick s v =
      { s with audioBuffer := s.audioBuffer.set s.recHead v,
               recHead := s.recHead + 1,
               activeBufferLen := s.audioBuffer.length } := by
  rw [recordTick, if_neg hb]
  simp only [if_pos hlt, List.length_set]
  rw [if_neg hnw]

lemma process_nonrec_audioBuffer (s : EngineState) (inp : TickInputs)
    (hR : recActiveB inp = false) :
    (process s inp).1.audioBuffer = s.audioBuffer := by
  have hs1 : applyRecordStart s inp = { s with recTrigState := recActiveB inp } :=
    applyRecordStart_noFire s inp (Or.inr hR)
  by_cases hg : (applyRecordStop (applyRecordStart s inp) false).isLoading = true ∨
      (applyRecordStop (applyRecordStart s inp) false).audioBuffer = [] ∨
      (applyRecordStop (applyRecordStart s inp) false).activeBufferLen = 0
  · rw [process_gate s inp hR hg]
    show (applyRecordStop (applyRecordStart s inp) false).audioBuffer = _
    rw [applyRecordStop_audioBuffer, hs1]
  · rw [process_playback s inp hR hg]
    rw [(playbackTick_preserves _ _).1, applyRecordStop_audioBuffer, hs1]

lemma process_stopEdge_activeLen (s : EngineState) (inp : TickInputs)
    (h1 : s.wasRecordingPrev = true) (hR : recActiveB inp = false) :
    (process s inp).1.activeBufferLen =
      if s.bufferWrapped then s.audioBuffer.length
      else if s.recHead > 100 then s.recHead else 44100 := by
  have hs1 : applyRecordStart s inp = { s with recTrigState := recActiveB inp } :=
    applyRecordStart_noFire s inp (Or.inr hR)
  have hedge : (applyRecordStop (applyRecordStart s inp) false).activeBufferLen =
      if s.bufferWrapped then s.audioBuffer.length
      else if s.recHead > 100 then s.recHead else 44100 := by
    rw [hs1, hR, applyRecordStop_activeLen_edge _ (by simp [h1])]
  by_cases hg : (applyRecordStop (applyRecordStart s inp) false).isLoading = true ∨
      (applyRecordStop (applyRecordStart s inp) false).audioBuffer = [] ∨
      (applyRecordStop (applyRecordStart s inp) false).activeBufferLen = 0
  · rw [process_gate s inp hR hg]
    exact hedge
  · rw [process_playback s inp hR hg]
    rw [(playbackTick_preserves _ _).2.1]
    exact hedge

lemma process_rec_first (sr : ℕ) (v : ℝ) (hsr : 0 < sr) :
    (process initState (recInputs sr v)).1 = recMidState sr [v] := by
  have hR := recActiveB_recInputs sr v
  have h1 : applyRecordStart initState (recInputs sr v) =
      { initState with
        recTrigState := true,
        audioBuffer := List.replicate (sr * 10) 0, fileSampleRate := sr,
        bufferIsRawVoltage := true, recHead := 0, bufferWrapped := false,
        isLoading := false } := by
    have hc : initState.audioBuffer.length < 44100 := by decide
    simp only [applyRecordStart, hR,
      if_pos (show (true && !initState.recTrigState) = true from rfl),
      if_pos hc]
    rw [show (recInputs sr v).sampleRate = sr from rfl]
  have h2 : applyRecordStop (applyRecordStart initState (recInputs sr v)) true
      = { audioBuffer := List.replicate (sr * 10) 0, fileSampleRate := sr,
          activeBufferLen := 0, bufferIsRawVoltage := true, grains := [],
          grainSpawnTimer := 0, grainSpawnPosition := 0, isLoading := false,
          isRecording := true, recHead := 0, wasRecordingPrev := true,
          bufferWrapped := false, recTrigState := true } := by
    rw [h1, applyRecordStop_noEdge _ _ (Or.inl rfl)]
    rfl
  rw [process_recording _ _ hR, h2,
    show (recInputs sr v).inVoct = v from rfl]
  have hlen : (List.replicate (sr * 10) (0 : ℝ)).length = sr * 10 := by
    rw [List.length_replicate]
  have hbR : List.replicate (sr * 10) (0 : ℝ) ≠ [] := by
    apply List.ne_nil_of_length_pos
    rw [hlen]
    omega
  rw [recordTick_eq _ _ hbR
    (by show (0 : ℕ) < (List.replicate (sr * 10) (0 : ℝ)).length
        rw [hlen]; omega)
    (by show ¬(0 : ℕ) + 1 ≥ (List.replicate (sr * 10) (0 : ℝ)).length
        rw [hlen]; omega)]
  have hset : (List.replicate (sr * 10) (0 : ℝ)).set 0 v
      = v :: List.replicate (sr * 10 - 1) 0 := by
    rw [show sr * 10 = (sr * 10 - 1) + 1 by omega, List.replicate_succ]
    rfl
  simp only [hset, hlen]
  rw [recMidState]
  simp only [List.singleton_append, List.length_cons, List.length_nil]

lemma write_at_head (N : ℕ) (ws : List ℝ) (v : ℝ) (h : ws.length < N) :
    (ws ++ List.replicate (N - ws.length) (0 : ℝ)).set ws.length v
      = (ws ++ [v]) ++ List.replicate (N - (ws.length + 1)) 0 := by
  have h1 : N - ws.length = (N - (ws.length + 1)) + 1 := by omega
  rw [h1, List.replicate_succ, List.set_append]
  simp

lemma process_rec_step (sr : ℕ) (ws : List ℝ) (v : ℝ)
    (h : ws.length + 1 < sr * 10) :
    (process (recMidState sr ws) (recInputs sr v)).1
      = recMidState sr (ws ++ [v]) := by
  have hR := recActiveB_recInputs sr v
  have hlenN : (recMidState sr ws).audioBuffer.length = sr * 10 := by
    simp [recMidState]
    omega
  have h2 : applyRecordStop
      (applyRecordStart (recMidState sr ws) (recInputs sr v)) true
        = recMidState sr ws := by
    rw [applyRecordStart_noFire _ _ (Or.inl rfl), hR,
      applyRecordStop_noEdge _ _ (Or.inr rfl)]
    rfl
  rw [process_recording _ _ hR, h2,
    show (recInputs sr v).inVoct = v from rfl]
  rw [recordTick_eq _ _
    (fun hh => by rw [hh] at hlenN; simp at hlenN; omega)
    (by rw [hlenN]; show ws.length < sr * 10; omega)
    (by rw [hlenN]; show ¬ws.length + 1 ≥ sr * 10; omega)]
  have hwa := write_at_head (sr * 10) ws v (by omega)
  simp [recMidState, hwa, hlenN]
  omega

lemma runRecord_mid (sr : ℕ) (vs : List ℝ) : ∀ ws : List ℝ,
    ws.length + vs.length < sr * 10 →
    runRecord sr (recMidState sr ws) vs = recMidState sr (ws ++ vs) := by
  induction vs with
  | nil =>
      intro ws _
      simp [runRecord]
  | cons v rest ih =>
      intro ws h
      rw [runRecord, List.foldl_cons]
      rw [show (List.length ws) + (v :: rest).length = ws.length + 1 + rest.length
        by simp; omega] at h
      rw [process_rec_step sr ws v (by omega)]
      have := ih (ws ++ [v]) (by simp; omega)
      rw [runRecord] at this
      rw [this]
      simp

lemma runRecord_from_init (sr : ℕ) (vs : List ℝ) (h0 : vs ≠ [])
    (h : vs.length < sr * 10) (hsr : 0 < sr) :
    runRecord sr initState vs = recMidState sr vs := by
  cases vs with
  | nil => exact absurd rfl h0
  | cons v rest =>
      rw [runRecord, List.foldl_cons, process_rec_first sr v hsr]
      have := runRecord_mid sr rest [v] (by simp at h ⊢; omega)
      rw [runRecord] at this
      rw [this]
      simp

/-- C2: stopping a capture on the falling edge of the record gate
finalizes the active length exactly as the code writes it (full buffer
size if wrapped, else the write head with the 44100 floor when the head
is at most 100); and the concrete round trip: capturing exactly 22050
samples at 44100 Hz from a fresh module without wrapping and then
stopping yields activeBufferLen = 22050 with the first 22050 buffer
entries equal to the recorded input samples. -/
theorem c2_stop_finalizes_and_round_trip :
    (∀ (s : EngineState) (inp : TickInputs), s.wasRecordingPrev = true →
      recActiveB inp = false →
      (process s inp).1.activeBufferLen =
        if s.bufferWrapped then s.audioBuffer.length
        else if s.recHead > 100 then s.recHead else 44100) ∧
    (∀ vs : List ℝ, vs.length = 22050 →
      (process (runRecord 44100 initState vs) stopInputs).1.activeBufferLen
          = 22050 ∧
      (process (runRecord 44100 initState vs) stopInputs).1.audioBuffer.take
          22050 = vs) := by
  refine ⟨process_stopEdge_activeLen, ?_⟩
  intro vs hlen
  have h0 : vs ≠ [] := by
    intro h
    rw [h] at hlen
    simp at hlen
  have hrun : runRecord 44100 initState vs = recMidState 44100 vs :=
    runRecord_from_init 44100 vs h0 (by omega) (by norm_num)
  rw [hrun]
  have hstop := recActiveB_stopInputs
  constructor
  · rw [process_stopEdge_activeLen _ _ rfl hstop]
    rw [show (recMidState 44100 vs).bufferWrapped = false from rfl]
    rw [if_neg (by simp)]
    rw [show (recMidState 44100 vs).recHead = vs.length from rfl]
    rw [if_pos (by omega)]
    exact hlen
  · rw [process_nonrec_audioBuffer _ _ hstop]
    rw [show (recMidState 44100 vs).audioBuffer
      = vs ++ List.replicate (44100 * 10 - vs.length) 0 from rfl]
    rw [← hlen, List.take_left]

/-- Witness for C2: the general stop rule applied to a wrapped capture
state, and the round trip run on 22050 samples of value 3. -/
theorem c2_witness :
    ((recMidState 44100 [1]).wasRecordingPrev = true ∧
      recActiveB stopInputs = false ∧
      (process (recMidState 44100 [1]) stopInputs).1.activeBufferLen =
        if (recMidState 44100 [1]).bufferWrapped then
          (recMidState 44100 [1]).audioBuffer.length
        else if (recMidState 44100 [1]).recHead > 100 then
          (recMidState 44100 [1]).recHead
        else 44100) ∧
    ((List.replicate 22050 (3 : ℝ)).length = 22050 ∧
      (process (runRecord 44100 initState (List.replicate 22050 3))
        stopInputs).1.activeBufferLen = 22050) := by
  refine ⟨⟨rfl, recActiveB_stopInputs, ?_⟩, ⟨?_, ?_⟩⟩
  · exact c2_stop_finalizes_and_round_trip.1 _ _ rfl recActiveB_stopInputs
  · rw [List.length_replicate]
  · exact (c2_stop_finalizes_and_round_trip.2 _ (by rw [List.length_replicate])).1

lemma process_rec_activeLen (s : EngineState) (inp : TickInputs)
    (hR : recActiveB inp = true)
    (hb : (applyRecordStop (applyRecordStart s inp) true).audioBuffer ≠ []) :
    (process s inp).1.activeBufferLen =
      (applyRecordStop (applyRecordStart s inp) true).audioBuffer.length := by
  rw [process_recording _ _ hR]
  exact recordTick_activeLen _ _ hb

/-- Counterexample for C6: a recording tick does not leave
activeBufferLen unchanged.  Starting from a state holding a short
trimmed clip (activeBufferLen = 2) with the record gate going high, the
very tick that captures one input sample sets activeBufferLen to the
full buffer size (10 here), not to its previous value. -/
theorem c6_counterexample :
    (process shortClipState (recInputs 1 9)).1.activeBufferLen ≠
      shortClipState.activeBufferLen := by
  have hR := recActiveB_recInputs 1 (9 : ℝ)
  have h1 : applyRecordStart shortClipState (recInputs 1 9) =
      { shortClipState with
        recTrigState := true, audioBuffer := List.replicate 10 0,
        fileSampleRate := 1, bufferIsRawVoltage := true, recHead := 0,
        bufferWrapped := false, isLoading := false } := by
    have hc : shortClipState.audioBuffer.length < 44100 := by decide
    simp only [applyRecordStart, hR,
      if_pos (show (true && !shortClipState.recTrigState) = true from rfl),
      if_pos hc]
    rw [show (recInputs 1 9).sampleRate = 1 from rfl]
  have h2 : applyRecordStop
      (applyRecordStart shortClipState (recInputs 1 9)) true
        = { shortClipState with
            recTrigState := true, audioBuffer := List.replicate 10 0,
            fileSampleRate := 1, bufferIsRawVoltage := true, recHead := 0,
            bufferWrapped := false, isLoading := false,
            wasRecordingPrev := true, isRecording := true } := by
    rw [h1, applyRecordStop_noEdge _ _ (Or.inl rfl)]
  rw [process_rec_activeLen _ _ hR (by rw [h2]; simp), h2]
  simp [shortClipState]

/-- C6 amended: while capture is in progress activeBufferLen is not left
unchanged: every recording tick with a non-empty buffer sets it to the
full buffer size; the trimmed final value (write head, with the wrap and
too-short cases) is assigned only on the tick that observes the falling
edge of the record gate. -/
theorem c6_amended_capture_active_length :
    (∀ (s : EngineState) (inp : TickInputs), recActiveB inp = true →
      s.recTrigState = true → s.audioBuffer ≠ [] →
      (process s inp).1.activeBufferLen = s.audioBuffer.length) ∧
    (∀ (s : EngineState) (inp : TickInputs), s.wasRecordingPrev = true →
      recActiveB inp = false →
      (process s inp).1.activeBufferLen =
        if s.bufferWrapped then s.audioBuffer.length
        else if s.recHead > 100 then s.recHead else 44100) := by
  constructor
  · intro s inp hRec hTrig hBuf
    have h2 : applyRecordStop (applyRecordStart s inp) true
        = { s with recTrigState := true, wasRecordingPrev := true,
                   isRecording := true } := by
      rw [applyRecordStart_noFire _ _ (Or.inl hTrig), hRec,
        applyRecordStop_noEdge _ _ (Or.inr rfl)]
    rw [process_rec_activeLen _ _ hRec (by rw [h2]; simpa using hBuf), h2]
  · exact process_stopEdge_activeLen

/-- Witness for C6 amended: a concrete capture tick on a 3-sample buffer
with stale activeBufferLen 2 observes the full length 3. -/
theorem c6_witness :
    recActiveB (recInputs 44100 4) = true ∧
    captureMidSmall.recTrigState = true ∧
    captureMidSmall.audioBuffer ≠ [] ∧
    (process captureMidSmall (recInputs 44100 4)).1.activeBufferLen =
      captureMidSmall.audioBuffer.length :=
  ⟨recActiveB_recInputs 44100 4, rfl, by simp [captureMidSmall],
   c6_amended_capture_active_length.1 _ _ (recActiveB_recInputs 44100 4) rfl
     (by simp [captureMidSmall])⟩
